import Mathlib

/-!
# Verification of the deep-prostate segmentation / imaging core

A shallow embedding, in Lean 4, of the algorithmic core of the
`deep-prostate` repository:

* `src/domain/entities/medical_image.py` — `ImageSpacing`, `WindowLevel`,
  `MedicalImage` (windowing, slicing, window/level mutation);
* `src/domain/entities/segmentation.py` — `MedicalSegmentation`
  (confidence levels, voxel counts, bounding box, centroid, geometric
  metrics, intensity statistics, mask algebra);
* `src/application/services/segmentation_services.py` —
  `SegmentationEditingService` (brush editing, merging).

Modelling conventions:

* numpy numeric arrays are embedded as a flat `List ℚ` in C (row-major)
  order together with a `shape : List ℕ`; boolean masks as a flat
  `List Bool` with a `shape`.  Python floats are idealised as `ℚ` where
  the code stays in rational arithmetic, and as `ℝ` where the code uses
  irrational functions (`sqrt`, `π`, `log2`, fractional powers).
* Python exceptions are embedded as `Except String`.
* Nondeterministic bookkeeping fields of the entities (`uuid` ids,
  `datetime.now()` timestamps, modification history) and the repository
  persistence calls are not modelled: no computation in this core reads
  them back.
* The aliasing behaviour of numpy views (`.copy()` versus basic slicing)
  is modelled separately with an explicit buffer heap, below in the
  `Alias` namespace.
-/

namespace DeepProstate

/-! ## Confidence levels (`segmentation.py`, `ConfidenceLevel`,
`MedicalSegmentation.confidence_level`) -/

/-- `ConfidenceLevel` enum from `segmentation.py`. -/
inductive ConfidenceLevel where
  | VERY_LOW
  | LOW
  | MODERATE
  | HIGH
  | VERY_HIGH
  deriving DecidableEq, Repr

/-- `MedicalSegmentation.confidence_level` property: categorical level
derived from the optional numeric score. Mirrors the `if/elif` chain of
`segmentation.py` lines 156–171. -/
def confidenceLevel (score : Option ℚ) : Option ConfidenceLevel :=
  match score with
  | none => none
  | some s =>
    if s < 3/10 then some .VERY_LOW
    else if s < 5/10 then some .LOW
    else if s < 7/10 then some .MODERATE
    else if s < 9/10 then some .HIGH
    else some .VERY_HIGH

/-! ## Window / level (`medical_image.py`, `WindowLevel`) -/

/-- `WindowLevel` dataclass: window width and center level. -/
structure WindowLevel where
  window : ℚ
  level : ℚ
  deriving DecidableEq, Repr

/-- `WindowLevel.get_display_range`: `(level - window/2, level + window/2)`. -/
def WindowLevel.getDisplayRange (wl : WindowLevel) : ℚ × ℚ :=
  (wl.level - wl.window / 2, wl.level + wl.window / 2)

/-- `np.clip(v, lo, hi) = min(max(v, lo), hi)` elementwise. -/
def npClip (lo hi v : ℚ) : ℚ := min (max v lo) hi

/-- `WindowLevel.apply_to_array`: clip every element to the display range,
then normalize to `[0,1]` unless the range is degenerate, in which case
return all zeros (`np.zeros_like`). The array is the flat element list;
clipping and rescaling are elementwise, so the shape is irrelevant. -/
def WindowLevel.applyToArray (wl : WindowLevel) (imageArray : List ℚ) : List ℚ :=
  let r := wl.getDisplayRange
  let minVal := r.1
  let maxVal := r.2
  let clipped := imageArray.map (npClip minVal maxVal)
  if maxVal ≠ minVal then
    clipped.map (fun c => (c - minVal) / (maxVal - minVal))
  else
    clipped.map (fun _ => 0)

/-! ## Medical image (`medical_image.py`, `MedicalImage`) -/

/-- `ImagePlaneType` enum. -/
inductive ImagePlaneType where
  | AXIAL
  | SAGITTAL
  | CORONAL
  | OBLIQUE
  deriving DecidableEq, Repr

/-- A 2-D numeric array: shape `[height, width]` plus the flat element
list in row-major order, as numpy lays slices out. -/
structure Array2 where
  height : ℕ
  width : ℕ
  data : List ℚ
  deriving DecidableEq, Repr

/-- Pure-value model of `MedicalImage` restricted to the fields the
claims read: the 3-D array (`depth × height × width`, flat row-major
data) and the mutable `current_window_level`.  Identity fields
(`patient_id`, UIDs, dates, metadata) are carried by the Python entity
but never enter the computations verified here. -/
structure MedicalImage where
  depth : ℕ
  height : ℕ
  width : ℕ
  data : List ℚ
  currentWindowLevel : WindowLevel
  deriving DecidableEq, Repr

/-- The image array invariant established by the constructor: the flat
buffer holds exactly `depth*height*width` elements. -/
def MedicalImage.WF (img : MedicalImage) : Prop :=
  img.data.length = img.depth * img.height * img.width

/-- The flat data of the axial slice at `index`: numpy's
`data[index, :, :]`, i.e. the contiguous row-major block of
`height*width` elements starting at `index*height*width`. -/
def MedicalImage.axialSliceData (img : MedicalImage) (index : ℕ) : List ℚ :=
  (img.data.drop (index * (img.height * img.width))).take (img.height * img.width)

/-- The flat data of the sagittal slice at `index`: numpy's
`data[:, :, index]`, shape `(depth, height)`. -/
def MedicalImage.sagittalSliceData (img : MedicalImage) (index : ℕ) : List ℚ :=
  ((List.range img.depth).flatMap (fun z =>
    (List.range img.height).map (fun y =>
      img.data.getD (z * (img.height * img.width) + y * img.width + index) 0)))

/-- The flat data of the coronal slice at `index`: numpy's
`data[:, index, :]`, shape `(depth, width)`. -/
def MedicalImage.coronalSliceData (img : MedicalImage) (index : ℕ) : List ℚ :=
  ((List.range img.depth).flatMap (fun z =>
    (List.range img.width).map (fun x =>
      img.data.getD (z * (img.height * img.width) + index * img.width + x) 0)))

/-- `MedicalImage.get_slice`: extract a 2-D cut of the 3-D volume.
Mirrors `medical_image.py` lines 175–210: the rank check (our model is
always rank 3, so that branch is vacuous here), the per-plane range
check with its error message shape, and the unsupported-plane error for
`OBLIQUE`. -/
def MedicalImage.getSlice (img : MedicalImage) (plane : ImagePlaneType)
    (index : ℕ) : Except String Array2 :=
  match plane with
  | .AXIAL =>
    if index < img.depth then
      .ok ⟨img.height, img.width, img.axialSliceData index⟩
    else .error "axial index out of range"
  | .SAGITTAL =>
    if index < img.width then
      .ok ⟨img.depth, img.height, img.sagittalSliceData index⟩
    else .error "sagittal index out of range"
  | .CORONAL =>
    if index < img.height then
      .ok ⟨img.depth, img.width, img.coronalSliceData index⟩
    else .error "coronal index out of range"
  | .OBLIQUE => .error "plane not supported for simple extraction"

/-- Re-stacking all axial slices: `np.stack([get_slice(AXIAL, i) for i in
range(depth)])` — the concatenation of the slice buffers in order, which
is the flat row-major data of the stacked 3-D array. -/
def MedicalImage.stackAxialSlices (img : MedicalImage) : List ℚ :=
  ((List.range img.depth).map img.axialSliceData).flatten

/-- `MedicalImage.set_window_level`: reject non-positive window widths,
otherwise replace `current_window_level` with a fresh `WindowLevel`.
Mirrors `medical_image.py` lines 245–256. -/
def MedicalImage.setWindowLevel (img : MedicalImage) (window level : ℚ) :
    Except String MedicalImage :=
  if window ≤ 0 then
    .error "window width must be positive"
  else
    .ok { img with currentWindowLevel := ⟨window, level⟩ }

/-- The state of the image after a `set_window_level` call under Python
exception semantics: on success the updated object, on a raised
exception the object exactly as it was before the call (the `raise`
happens before any assignment). -/
def MedicalImage.setWindowLevelPost (img : MedicalImage) (window level : ℚ) :
    MedicalImage :=
  match img.setWindowLevel window level with
  | .ok img' => img'
  | .error _ => img

/-! ## Buffer/view model of numpy aliasing (`medical_image.py`,
`image_data` property and `get_slice`)

The Python entity stores a numpy array.  numpy's documented semantics,
which the source relies on:

* `arr.copy()` allocates a fresh buffer holding the same elements;
* basic slicing such as `arr[index, :, :]` returns a *view*: a handle
  onto the same underlying buffer (for an axial slice, the contiguous
  row-major block of `height*width` elements at offset
  `index*height*width`), so writes through the view are writes to the
  base array's buffer.

We model this with an explicit heap of flat buffers.  `image_data`
(property, line 125–128) returns `self._image_data.copy()`;
`get_slice(AXIAL, index)` (line 194–197) returns
`self._image_data[index, :, :]` with no copy. -/

namespace Alias

/-- A heap of numpy buffers; a buffer id is an index into the list. -/
structure Heap where
  bufs : List (List ℚ)
  deriving DecidableEq, Repr

/-- A handle onto a contiguous region of a buffer: both full arrays and
axial-slice views are of this form. -/
structure View where
  bufId : ℕ
  offset : ℕ
  size : ℕ
  deriving DecidableEq, Repr

/-- The `MedicalImage`'s array state: the id of the internal
`_image_data` buffer and the 3-D shape. -/
structure ImageRef where
  bufId : ℕ
  depth : ℕ
  height : ℕ
  width : ℕ
  deriving DecidableEq, Repr

/-- The elements a view denotes in a heap. -/
def Heap.readView (h : Heap) (v : View) : List ℚ :=
  ((h.bufs.getD v.bufId []).drop v.offset).take v.size

/-- Write value `x` at position `p` of a view: a write into the
underlying buffer at `v.offset + p` (numpy view assignment). -/
def Heap.writeView (h : Heap) (v : View) (p : ℕ) (x : ℚ) : Heap :=
  ⟨h.bufs.set v.bufId ((h.bufs.getD v.bufId []).set (v.offset + p) x)⟩

/-- Allocate a fresh buffer holding `xs`; returns the new heap and the
new buffer's id. -/
def Heap.alloc (h : Heap) (xs : List ℚ) : Heap × ℕ :=
  (⟨h.bufs ++ [xs]⟩, h.bufs.length)

/-- The full-array view of the image's internal buffer. -/
def ImageRef.internalView (img : ImageRef) : View :=
  ⟨img.bufId, 0, img.depth * img.height * img.width⟩

/-- The `image_data` property (line 125–128): `self._image_data.copy()` —
allocate a fresh buffer with the internal elements and hand back a view
of the *new* buffer. -/
def imageDataRead (h : Heap) (img : ImageRef) : Heap × View :=
  let elems := h.readView img.internalView
  let (h', b) := h.alloc elems
  (h', ⟨b, 0, elems.length⟩)

/-- `get_slice(AXIAL, index)` (line 194–197): range-check the index and
return `self._image_data[index, :, :]` — a view of the *internal*
buffer, no copy taken. -/
def getSliceAxial (img : ImageRef) (index : ℕ) :
    Except String View :=
  if index < img.depth then
    .ok ⟨img.bufId, index * (img.height * img.width), img.height * img.width⟩
  else .error "axial index out of range"

end Alias

/-! ## Image spacing (`medical_image.py`, `ImageSpacing`) -/

/-- `ImageSpacing` dataclass: physical voxel spacing in mm. -/
structure ImageSpacing where
  x : ℚ
  y : ℚ
  z : ℚ
  deriving DecidableEq, Repr

/-- `ImageSpacing.get_voxel_volume`: `x * y * z`. -/
def ImageSpacing.getVoxelVolume (s : ImageSpacing) : ℚ := s.x * s.y * s.z

/-- `ImageSpacing.is_isotropic`: pairwise spacing differences all below
the tolerance. -/
def ImageSpacing.isIsotropic (s : ImageSpacing) (tolerance : ℚ := 1/10) : Bool :=
  |s.x - s.y| < tolerance ∧ |s.y - s.z| < tolerance ∧ |s.x - s.z| < tolerance

/-! ## Segmentation masks (`segmentation.py`, `MedicalSegmentation`) -/

/-- `SegmentationType` enum. -/
inductive SegmentationType where
  | MANUAL
  | AUTOMATIC
  | SEMI_AUTOMATIC
  | IMPORTED
  deriving DecidableEq, Repr

/-- `AnatomicalRegion` enum. -/
inductive AnatomicalRegion where
  | PROSTATE_WHOLE
  | PROSTATE_PERIPHERAL_ZONE
  | PROSTATE_TRANSITION_ZONE
  | PROSTATE_CENTRAL_ZONE
  | SUSPICIOUS_LESION
  | CONFIRMED_CANCER
  | BENIGN_HYPERPLASIA
  | URETHRA
  | SEMINAL_VESICLES
  deriving DecidableEq, Repr

/-- A boolean voxel mask: `shape` (rank 2 or 3 in valid entities) plus
the flat element list in C (row-major) order, numpy's memory layout. -/
structure MaskArr where
  shape : List ℕ
  data : List Bool
  deriving DecidableEq, Repr

/-- Model of the `MedicalSegmentation` entity restricted to the fields
the verified computations read.  The generated `segmentation_id`, the
creation timestamp and the modification history are nondeterministic
bookkeeping the core never reads back; the metrics cache is invisible in
a pure model (cached and recomputed values coincide). -/
structure MedicalSegmentation where
  mask : MaskArr
  anatomicalRegion : AnatomicalRegion
  segmentationType : SegmentationType
  creatorId : String
  confidenceScore : Option ℚ
  parentImageUid : Option String
  description : String
  isLocked : Bool
  deriving DecidableEq, Repr

/-- The mask invariants established by `_validate_mask_data` plus the
flat-layout convention: rank 2 or 3, a nonempty array, and a data list
of exactly `shape.prod` elements. -/
def MaskArr.WF (m : MaskArr) : Prop :=
  (m.shape.length = 2 ∨ m.shape.length = 3) ∧
    m.data.length = m.shape.prod ∧ m.data ≠ []

/-- `MedicalSegmentation.voxel_count`: `int(np.sum(mask))` — the number
of `True` entries. -/
def MedicalSegmentation.voxelCount (s : MedicalSegmentation) : ℕ :=
  s.mask.data.count true

/-- `MedicalSegmentation.is_empty`: `voxel_count == 0`. -/
def MedicalSegmentation.isEmpty (s : MedicalSegmentation) : Bool :=
  s.voxelCount = 0

/-- Unravel a flat C-order index into a multi-index for the given shape
(the coordinate tuple numpy's `np.where` reports for that element). -/
def unravelIndex : List ℕ → ℕ → List ℕ
  | [], _ => []
  | _ :: ds, i => (i / ds.prod) :: unravelIndex ds (i % ds.prod)

/-- `list(zip(*np.where(mask)))`: the coordinate tuples of the `True`
voxels, in flat (C-order) index order — exactly the order `np.where`
produces. -/
def MaskArr.trueCoords (m : MaskArr) : List (List ℕ) :=
  m.data.enum.filterMap
    (fun p => if p.2 then some (unravelIndex m.shape p.1) else none)

/-- Python's `xs[::step]` for `step ≥ 1`: elements at indices
`0, step, 2*step, …`. -/
def sampleEvery (step : ℕ) : List α → List α
  | [] => []
  | x :: xs => x :: sampleEvery step (xs.drop (step - 1))
termination_by l => l.length
decreasing_by simp [List.length_drop]; omega

/-- The coordinate list that actually enters the pairwise-distance loop
of `_calculate_max_diameter` (`segmentation.py` lines 444–449): all true
coordinates, thinned to every `len(coords) // 1000`-th one when there
are more than 1000 of them. -/
def MaskArr.coordsForDiameter (m : MaskArr) : List (List ℕ) :=
  let coords := m.trueCoords
  if coords.length > 1000 then
    sampleEvery (coords.length / 1000) coords
  else
    coords

/-- `MedicalSegmentation.get_bounding_box` (lines 188–206): all-zero
pairs for an empty mask, otherwise per-axis `(min, max)` of the true
voxels' coordinates. -/
def MedicalSegmentation.getBoundingBox (s : MedicalSegmentation) :
    List (ℕ × ℕ) :=
  if s.isEmpty then
    s.mask.shape.map (fun _ => (0, 0))
  else
    (List.range s.mask.shape.length).map (fun a =>
      let axisVals := s.mask.trueCoords.map (fun c => c.getD a 0)
      ((axisVals.min?).getD 0, (axisVals.max?).getD 0))

/-- `MedicalSegmentation.get_centroid` (lines 208–224): all-zero for an
empty mask, otherwise the per-axis mean of true-voxel coordinates. -/
def MedicalSegmentation.getCentroid (s : MedicalSegmentation) : List ℚ :=
  if s.isEmpty then
    s.mask.shape.map (fun _ => (0 : ℚ))
  else
    (List.range s.mask.shape.length).map (fun a =>
      let axisVals := s.mask.trueCoords.map (fun c => c.getD a 0)
      ((axisVals.map (fun v => (v : ℚ))).sum / axisVals.length))

/-- The `.value` string of each `AnatomicalRegion` member, used for the
default description. -/
def AnatomicalRegion.value : AnatomicalRegion → String
  | .PROSTATE_WHOLE => "prostate_whole"
  | .PROSTATE_PERIPHERAL_ZONE => "prostate_peripheral_zone"
  | .PROSTATE_TRANSITION_ZONE => "prostate_transition_zone"
  | .PROSTATE_CENTRAL_ZONE => "prostate_central_zone"
  | .SUSPICIOUS_LESION => "suspicious_lesion"
  | .CONFIRMED_CANCER => "confirmed_cancer"
  | .BENIGN_HYPERPLASIA => "benign_hyperplasia"
  | .URETHRA => "urethra"
  | .SEMINAL_VESICLES => "seminal_vesicles"

/-- The `MedicalSegmentation` constructor (`segmentation.py` lines
97–129): validate the mask (`_validate_mask_data`: nonempty, rank 2 or
3) and the optional confidence score (`_validate_confidence_score`:
within `[0,1]`), then build the entity.  `mask_data.astype(bool)` is the
identity in our `Bool` model; the fresh uuid and timestamp are
bookkeeping the core never reads. -/
def mkMedicalSegmentation (mask : MaskArr) (region : AnatomicalRegion)
    (segType : SegmentationType) (creatorId : String)
    (confidenceScore : Option ℚ := none) (parentImageUid : Option String := none)
    (description : Option String := none) : Except String MedicalSegmentation :=
  if mask.data.length = 0 then
    .error "mask cannot be empty"
  else if ¬ (2 ≤ mask.shape.length ∧ mask.shape.length ≤ 3) then
    .error "mask must be 2D or 3D"
  else if (match confidenceScore with
           | some c => ¬ (0 ≤ c ∧ c ≤ 1)
           | none => False : Bool) then
    .error "confidence score must be between 0.0 and 1.0"
  else
    .ok { mask := mask
          anatomicalRegion := region
          segmentationType := segType
          creatorId := creatorId
          confidenceScore := confidenceScore
          parentImageUid := parentImageUid
          description := description.getD (region.value ++ " segmentation")
          isLocked := false }

/-- `MedicalSegmentation.union_with` (lines 323–346): require equal
shapes, build a brand-new segmentation whose mask is the elementwise
`np.logical_or`, region from `self`, type forced `MANUAL`, creator
`"system_union"`. -/
def MedicalSegmentation.unionWith (s other : MedicalSegmentation) :
    Except String MedicalSegmentation :=
  if s.mask.shape ≠ other.mask.shape then
    .error "segmentations must have the same dimensions"
  else
    mkMedicalSegmentation
      ⟨s.mask.shape, s.mask.data.zipWith (· || ·) other.mask.data⟩
      s.anatomicalRegion .MANUAL "system_union" none s.parentImageUid
      (some ("Union of " ++ s.description ++ " and " ++ other.description))

/-- `MedicalSegmentation.intersection_with` (lines 348–371): require
equal shapes, build a brand-new segmentation whose mask is the
elementwise `np.logical_and`. -/
def MedicalSegmentation.intersectionWith (s other : MedicalSegmentation) :
    Except String MedicalSegmentation :=
  if s.mask.shape ≠ other.mask.shape then
    .error "segmentations must have the same dimensions"
  else
    mkMedicalSegmentation
      ⟨s.mask.shape, s.mask.data.zipWith (· && ·) other.mask.data⟩
      s.anatomicalRegion .MANUAL "system_intersection" none s.parentImageUid
      (some ("Intersection of " ++ s.description ++ " and " ++ other.description))

/-! ## Geometric metrics (`segmentation.py`, `calculate_metrics` and the
`_calculate_*` helpers) -/

/-- `SegmentationMetrics` dataclass.  Fields the code computes in
rational arithmetic are `ℚ`; those involving `sqrt`, `π` or fractional
powers are idealised as `ℝ`. -/
structure SegmentationMetrics where
  volumeMm3 : ℚ
  surfaceAreaMm2 : ℚ
  maxDiameterMm : ℝ
  sphericity : ℝ
  compactness : ℝ
  voxelCount : ℕ

/-- The physical Euclidean distance between two voxel coordinates
(`_calculate_max_diameter`, lines 453–463): the 3-D formula when the
coordinate tuple has three components, otherwise the 2-D one.  In the
3-D mask the tuple is `(z, y, x)`, so component 2 pairs with
`spacing.x`, component 1 with `spacing.y`, component 0 with
`spacing.z`. -/
noncomputable def pairDistance (sp : ImageSpacing) (c1 c2 : List ℕ) : ℝ :=
  if c1.length = 3 then
    let dx := ((c1.getD 2 0 : ℚ) - (c2.getD 2 0 : ℚ)) * sp.x
    let dy := ((c1.getD 1 0 : ℚ) - (c2.getD 1 0 : ℚ)) * sp.y
    let dz := ((c1.getD 0 0 : ℚ) - (c2.getD 0 0 : ℚ)) * sp.z
    Real.sqrt ((dx * dx + dy * dy + dz * dz : ℚ) : ℝ)
  else
    let dx := ((c1.getD 1 0 : ℚ) - (c2.getD 1 0 : ℚ)) * sp.x
    let dy := ((c1.getD 0 0 : ℚ) - (c2.getD 0 0 : ℚ)) * sp.y
    Real.sqrt ((dx * dx + dy * dy : ℚ) : ℝ)

/-- The ordered pairs `(coords[i], coords[j])` with `i < j` visited by
the nested loop `for i, coord1 in enumerate(coords): for coord2 in
coords[i+1:]`. -/
def listPairs : List α → List (α × α)
  | [] => []
  | x :: xs => xs.map (fun y => (x, y)) ++ listPairs xs

/-- `MedicalSegmentation._calculate_max_diameter` (lines 432–467):
0 for an empty mask or fewer than two true voxels; otherwise the maximum
physical pairwise distance over the (possibly thinned, see
`MaskArr.coordsForDiameter`) coordinate list, folded from `0.0`. -/
noncomputable def MedicalSegmentation.calculateMaxDiameter
    (s : MedicalSegmentation) (sp : ImageSpacing) : ℝ :=
  if s.isEmpty then 0
  else if s.mask.trueCoords.length < 2 then 0
  else
    ((listPairs s.mask.coordsForDiameter).map
      (fun p => pairDistance sp p.1 p.2)).foldl max 0

/-- The mask cast to float, read at a flat index (out-of-range reads
default to 0; all uses stay in range). -/
def MaskArr.float (m : MaskArr) (i : ℕ) : ℚ :=
  if m.data.getD i false then 1 else 0

/-- `np.gradient(mask.astype(float), axis=k)` at flat index `i`:
one-sided differences at the boundary of axis `k`, central differences
inside.  numpy raises for an axis of extent < 2; that case (returned
here as 0) is unreachable in the verified claims. -/
def MaskArr.gradAxis (m : MaskArr) (k : ℕ) (i : ℕ) : ℚ :=
  let st := (m.shape.drop (k + 1)).prod
  let n := m.shape.getD k 0
  let j := (i / st) % n
  if n < 2 then 0
  else if j = 0 then m.float (i + st) - m.float i
  else if j = n - 1 then m.float i - m.float (i - st)
  else (m.float (i + st) - m.float (i - st)) / 2

/-- `MedicalSegmentation._calculate_surface_area` (lines 469–500):
count the voxels with nonzero gradient magnitude and scale by the mean
voxel face area (3-D) or mean pixel edge length (2-D).  The source
compares `sqrt(gx²+gy²+gz²) > 0`; we compare the radicand with 0, which
is equivalent since `sqrt q > 0 ↔ q > 0` for `q ≥ 0`. -/
def MedicalSegmentation.calculateSurfaceArea
    (s : MedicalSegmentation) (sp : ImageSpacing) : ℚ :=
  if s.isEmpty then 0
  else if s.mask.shape.length = 3 then
    let surfaceVoxels := (List.range s.mask.data.length).countP (fun i =>
      decide (0 < s.mask.gradAxis 2 i ^ 2 + s.mask.gradAxis 1 i ^ 2 +
        s.mask.gradAxis 0 i ^ 2))
    let avgVoxelFaceArea := (sp.x * sp.y + sp.y * sp.z + sp.x * sp.z) / 3
    surfaceVoxels * avgVoxelFaceArea
  else
    let perimeterPixels := (List.range s.mask.data.length).countP (fun i =>
      decide (0 < s.mask.gradAxis 1 i ^ 2 + s.mask.gradAxis 0 i ^ 2))
    let avgPixelLength := (sp.x + sp.y) / 2
    perimeterPixels * avgPixelLength

/-- `MedicalSegmentation._calculate_sphericity` (lines 502–513): 0 for
non-positive volume or surface; 3-D sphericity
`π^(1/3)·(6V)^(2/3)/A`, 2-D circularity `4πA/P²`. -/
noncomputable def MedicalSegmentation.calculateSphericity
    (s : MedicalSegmentation) (volume surfaceArea : ℚ) : ℝ :=
  if volume ≤ 0 ∨ surfaceArea ≤ 0 then 0
  else if s.mask.shape.length = 3 then
    Real.pi ^ ((1 : ℝ) / 3) * (6 * (volume : ℝ)) ^ ((2 : ℝ) / 3) /
      (surfaceArea : ℝ)
  else
    4 * Real.pi * (volume : ℝ) / ((surfaceArea : ℝ) ^ 2)

/-- `MedicalSegmentation._calculate_compactness` (lines 515–525): 0 for
non-positive volume or surface; 3-D `V/A^1.5`, 2-D `V/P²`. -/
noncomputable def MedicalSegmentation.calculateCompactness
    (s : MedicalSegmentation) (volume surfaceArea : ℚ) : ℝ :=
  if volume ≤ 0 ∨ surfaceArea ≤ 0 then 0
  else if s.mask.shape.length = 3 then
    (volume : ℝ) / ((surfaceArea : ℝ) ^ ((3 : ℝ) / 2))
  else
    (volume : ℝ) / ((surfaceArea : ℝ) ^ 2)

/-- `MedicalSegmentation.calculate_metrics` (lines 226–270): the
all-zero record for an empty mask, otherwise volume, diameter, surface
area, sphericity and compactness from the helpers.  The metrics cache
is invisible in this pure model: the cached value is exactly what a
recomputation yields. -/
noncomputable def MedicalSegmentation.calculateMetrics
    (s : MedicalSegmentation) (sp : ImageSpacing) : SegmentationMetrics :=
  if s.isEmpty then
    { volumeMm3 := 0, surfaceAreaMm2 := 0, maxDiameterMm := 0,
      sphericity := 0, compactness := 0, voxelCount := 0 }
  else
    let voxelVolume := sp.getVoxelVolume
    let volumeMm3 := s.voxelCount * voxelVolume
    let maxDiameterMm := s.calculateMaxDiameter sp
    let surfaceAreaMm2 := s.calculateSurfaceArea sp
    { volumeMm3 := volumeMm3
      surfaceAreaMm2 := surfaceAreaMm2
      maxDiameterMm := maxDiameterMm
      sphericity := s.calculateSphericity volumeMm3 surfaceAreaMm2
      compactness := s.calculateCompactness volumeMm3 surfaceAreaMm2
      voxelCount := s.voxelCount }

/-! ## Intensity statistics (`segmentation.py`,
`calculate_intensity_statistics`, `_calculate_entropy`,
`_calculate_uniformity`) -/

/-- A numeric array in the flat row-major representation. -/
structure NumArr where
  shape : List ℕ
  data : List ℚ
  deriving DecidableEq, Repr

/-- `IntensityStatistics` dataclass; `std` and `entropy` are the two
fields the code derives through irrational functions, idealised as
`ℝ`. -/
structure IntensityStatistics where
  meanIntensity : ℚ
  stdIntensity : ℝ
  minIntensity : ℚ
  maxIntensity : ℚ
  medianIntensity : ℚ
  percentile25 : ℚ
  percentile75 : ℚ
  entropy : ℝ
  uniformity : ℚ

/-- `np.percentile(values, q)` with the default linear interpolation:
on the ascending sort, the value at fractional position
`(n-1)·q/100`. -/
def npPercentile (values : List ℚ) (q : ℚ) : ℚ :=
  let sorted := values.insertionSort (· ≤ ·)
  let n := sorted.length
  if n = 0 then 0
  else
    let pos : ℚ := ((n - 1 : ℕ) : ℚ) * q / 100
    let lo : ℕ := ⌊pos⌋.toNat
    let frac : ℚ := pos - (lo : ℚ)
    let vlo := sorted.getD lo 0
    let vhi := sorted.getD (min (lo + 1) (n - 1)) 0
    vlo + frac * (vhi - vlo)

/-- `np.histogram(values, bins=256, density=True)`: 256 uniform bins
between the data minimum and maximum (numpy widens a degenerate range
by ±0.5), the last bin right-closed; densities `count/(n·width)`. -/
def npHistogramDensity (values : List ℚ) : List ℚ :=
  let n := values.length
  let lo0 := (values.min?).getD 0
  let hi0 := (values.max?).getD 0
  let lo := if lo0 = hi0 then lo0 - 1/2 else lo0
  let hi := if lo0 = hi0 then hi0 + 1/2 else hi0
  let width := (hi - lo) / 256
  (List.range 256).map (fun i =>
    let left := lo + (i : ℚ) * width
    let right := lo + ((i : ℚ) + 1) * width
    let cnt :=
      if i = 255 then values.countP (fun v => decide (left ≤ v ∧ v ≤ right))
      else values.countP (fun v => decide (left ≤ v ∧ v < right))
    (cnt : ℚ) / ((n : ℚ) * width))

/-- `MedicalSegmentation._calculate_entropy` (lines 527–540): drop the
empty bins of the density histogram and return `-Σ p·log₂ p`. -/
noncomputable def entropyOf (values : List ℚ) : ℝ :=
  if values.length = 0 then 0
  else
    let hist := (npHistogramDensity values).filter (fun p => decide (0 < p))
    if hist.length = 0 then 0
    else -((hist.map (fun p => (p : ℝ) * Real.logb 2 (p : ℝ))).sum)

/-- `MedicalSegmentation._calculate_uniformity` (lines 542–551):
`Σ p²` over the density histogram. -/
def uniformityOf (values : List ℚ) : ℚ :=
  if values.length = 0 then 0
  else ((npHistogramDensity values).map (fun p => p ^ 2)).sum

/-- `np.mean`. -/
def listMean (values : List ℚ) : ℚ := values.sum / values.length

/-- `np.std` (population standard deviation, `ddof=0`). -/
noncomputable def listStd (values : List ℚ) : ℝ :=
  Real.sqrt
    (((values.map (fun v => (v - listMean values) ^ 2)).sum / values.length : ℚ) : ℝ)

/-- `MedicalSegmentation.calculate_intensity_statistics` (lines
272–321): raise on a shape mismatch, return the all-zero record for an
empty mask, otherwise aggregate statistics over `image_data[mask]` (the
true-masked values in flat C order, as numpy boolean indexing extracts
them). -/
noncomputable def MedicalSegmentation.calculateIntensityStatistics
    (s : MedicalSegmentation) (image : NumArr) :
    Except String IntensityStatistics :=
  if image.shape ≠ s.mask.shape then
    .error "image and mask dimensions must match"
  else if s.isEmpty then
    .ok { meanIntensity := 0, stdIntensity := 0, minIntensity := 0,
          maxIntensity := 0, medianIntensity := 0, percentile25 := 0,
          percentile75 := 0, entropy := 0, uniformity := 0 }
  else
    let maskedValues := (image.data.zip s.mask.data).filterMap
      (fun p => if p.2 then some p.1 else none)
    .ok { meanIntensity := listMean maskedValues
          stdIntensity := listStd maskedValues
          minIntensity := (maskedValues.min?).getD 0
          maxIntensity := (maskedValues.max?).getD 0
          medianIntensity := npPercentile maskedValues 50
          percentile25 := npPercentile maskedValues 25
          percentile75 := npPercentile maskedValues 75
          entropy := entropyOf maskedValues
          uniformity := uniformityOf maskedValues }

/-! ## Segmentation editing service
(`segmentation_services.py`, `SegmentationEditingService`) -/

/-- `SegmentationEditingService._create_spherical_brush` (lines
637–686): a boolean mask, true at the in-volume voxels within Euclidean
distance `radius` of `center`, false elsewhere; raises unless both the
shape and the center are 3-D.  The source's triple loop over the clipped
`center ± radius` box marks exactly the voxels with `dz²+dy²+dx² ≤ r²`
(`sqrt d ≤ r ↔ d ≤ r²` over the integers, and every such voxel lies in
the loop box), which is the characterisation used here. -/
def createSphericalBrush (shape : List ℕ) (center : ℤ × ℤ × ℤ)
    (radius : ℤ) : Except String MaskArr :=
  if shape.length ≠ 3 then
    .error "3D coordinates required for the brush"
  else
    .ok ⟨shape, (List.range shape.prod).map (fun i =>
      let c := unravelIndex shape i
      let dz := (c.getD 0 0 : ℤ) - center.1
      let dy := (c.getD 1 0 : ℤ) - center.2.1
      let dx := (c.getD 2 0 : ℤ) - center.2.2
      decide (dz * dz + dy * dy + dx * dx ≤ radius * radius))⟩

/-- One brush stroke combined into the working mask per `edit_mode`
(`apply_brush_edit`, lines 545–560): `add` is `OR`, `remove` is
`AND NOT`, `replace` is `AND NOT` then `OR` (equivalently `OR` here),
any other mode raises. -/
def applyStrokes (shape : List ℕ) (radius : ℤ) (editMode : String) :
    List Bool → List (ℤ × ℤ × ℤ) → Except String (List Bool)
  | editedMask, [] => .ok editedMask
  | editedMask, coord :: rest =>
    match createSphericalBrush shape coord radius with
    | .error e => .error e
    | .ok brush =>
      if editMode = "add" then
        applyStrokes shape radius editMode
          (editedMask.zipWith (· || ·) brush.data) rest
      else if editMode = "remove" then
        applyStrokes shape radius editMode
          (editedMask.zipWith (fun m b => m && !b) brush.data) rest
      else if editMode = "replace" then
        applyStrokes shape radius editMode
          ((editedMask.zipWith (fun m b => m && !b) brush.data).zipWith
            (· || ·) brush.data) rest
      else
        .error ("edit mode not recognized: " ++ editMode)

/-- `SegmentationEditingService.apply_brush_edit` (lines 515–574):
reject locked segmentations, apply the strokes left to right to a copy
of the mask, and build a new `MANUAL` segmentation credited to the
editor.  The repository save is persistence I/O outside this core. -/
def applyBrushEdit (segmentation : MedicalSegmentation)
    (brushCoordinates : List (ℤ × ℤ × ℤ)) (brushRadius : ℤ)
    (editMode : String) (editorId : String) :
    Except String MedicalSegmentation :=
  if segmentation.isLocked then
    .error "segmentation is locked for editing"
  else
    match applyStrokes segmentation.mask.shape brushRadius editMode
        segmentation.mask.data brushCoordinates with
    | .error e => .error e
    | .ok editedMask =>
      mkMedicalSegmentation ⟨segmentation.mask.shape, editedMask⟩
        segmentation.anatomicalRegion .MANUAL editorId none
        segmentation.parentImageUid
        (some ("Manual edit of " ++ segmentation.description))

/-- Python's `max(xs, key=f)` over a nonempty list: scan left to right,
replacing the current best only on a strictly greater key, so the first
maximiser wins. -/
def pyMaxBy (f : α → ℕ) : α → List α → α
  | best, [] => best
  | best, x :: xs => pyMaxBy f (if f x > f best then x else best) xs

/-- `SegmentationEditingService.merge_segmentations` (lines 578–639):
reject an empty list, then any dimension mismatch against the first
segmentation, then fold the masks per strategy (`union` / `intersection`
pairwise, `largest` takes the mask of the maximal-`voxel_count` input
unmodified); unknown strategies raise.  The merged entity is `MANUAL`,
credited to the editor, with the first input's region and parent. -/
def mergeSegmentations (segmentations : List MedicalSegmentation)
    (mergeStrategy : String) (editorId : String) :
    Except String MedicalSegmentation :=
  match segmentations with
  | [] => .error "at least one segmentation is required to merge"
  | base :: rest =>
    if rest.any (fun seg => seg.mask.shape ≠ base.mask.shape) then
      .error "all segmentations must have the same dimensions"
    else
      let mergedMask :=
        if mergeStrategy = "union" then
          .ok (rest.foldl (fun acc seg => acc.zipWith (· || ·) seg.mask.data)
            base.mask.data)
        else if mergeStrategy = "intersection" then
          .ok (rest.foldl (fun acc seg => acc.zipWith (· && ·) seg.mask.data)
            base.mask.data)
        else if mergeStrategy = "largest" then
          .ok (pyMaxBy MedicalSegmentation.voxelCount base rest).mask.data
        else
          (.error ("merge strategy not recognized: " ++ mergeStrategy) :
            Except String (List Bool))
      match mergedMask with
      | .error e => .error e
      | .ok mask =>
        mkMedicalSegmentation ⟨base.mask.shape, mask⟩
          base.anatomicalRegion .MANUAL editorId none base.parentImageUid
          (some ("Merged segmentation (" ++ mergeStrategy ++ ")"))

/-! # Theorems -/

/-! ## C1 — confidence level thresholds -/

/-- C1, counterexample: the claim asserts that a confidence score of
`0.92` yields `confidence_level == HIGH`; on the code `0.92 ≥ 0.9`
falls through to the final `else`, yielding `VERY_HIGH`. -/
theorem C1_counterexample :
    confidenceLevel (some (92/100)) = some ConfidenceLevel.VERY_HIGH ∧
      confidenceLevel (some (92/100)) ≠ some ConfidenceLevel.HIGH := by
  constructor
  · norm_num [confidenceLevel]
  · norm_num [confidenceLevel]
    decide

/-- C1 (amended): the derived categorical `confidence_level` follows the
score thresholds `<0.3` VERY_LOW, `<0.5` LOW, `<0.7` MODERATE, `<0.9`
HIGH, else VERY_HIGH; in particular a score of `0.92` yields VERY_HIGH
(not HIGH), `0.95` yields VERY_HIGH and `0.65` yields MODERATE. -/
theorem C1_confidence_thresholds :
    (∀ s : ℚ,
      (s < 3/10 → confidenceLevel (some s) = some ConfidenceLevel.VERY_LOW) ∧
      (3/10 ≤ s → s < 5/10 → confidenceLevel (some s) = some ConfidenceLevel.LOW) ∧
      (5/10 ≤ s → s < 7/10 → confidenceLevel (some s) = some ConfidenceLevel.MODERATE) ∧
      (7/10 ≤ s → s < 9/10 → confidenceLevel (some s) = some ConfidenceLevel.HIGH) ∧
      (9/10 ≤ s → confidenceLevel (some s) = some ConfidenceLevel.VERY_HIGH)) ∧
    confidenceLevel (some (92/100)) = some ConfidenceLevel.VERY_HIGH ∧
    confidenceLevel (some (95/100)) = some ConfidenceLevel.VERY_HIGH ∧
    confidenceLevel (some (65/100)) = some ConfidenceLevel.MODERATE := by
  refine ⟨fun s => ⟨?_, ?_, ?_, ?_, ?_⟩, by norm_num [confidenceLevel],
    by norm_num [confidenceLevel], by norm_num [confidenceLevel]⟩ <;>
    · intros
      simp only [confidenceLevel]
      split_ifs <;> first | rfl | linarith

/-- C1, witness: the threshold theorem applied at the concrete score
`0.65`. -/
theorem C1_witness :
    confidenceLevel (some (65/100)) = some ConfidenceLevel.MODERATE :=
  (C1_confidence_thresholds.1 (65/100)).2.2.1 (by norm_num) (by norm_num)

/-! ## C2 — windowing output range and midpoint -/

/-- C2: for every `WindowLevel` with positive window and every input
array, `apply_to_array` produces values in `[0,1]`, and every element
whose original value equals `level` maps to exactly `0.5`. -/
theorem C2_applyToArray_range_midpoint (wl : WindowLevel) (xs : List ℚ)
    (hw : 0 < wl.window) :
    (∀ y ∈ wl.applyToArray xs, 0 ≤ y ∧ y ≤ 1) ∧
    (∀ i : ℕ, xs.get? i = some wl.level →
      (wl.applyToArray xs).get? i = some (1/2)) := by
  have hne : wl.level + wl.window / 2 ≠ wl.level - wl.window / 2 := by
    intro h; nlinarith [h]
  have hlt : wl.level - wl.window / 2 < wl.level + wl.window / 2 := by linarith
  have hrange : wl.applyToArray xs = xs.map (fun v =>
      (npClip (wl.level - wl.window / 2) (wl.level + wl.window / 2) v -
        (wl.level - wl.window / 2)) /
      ((wl.level + wl.window / 2) - (wl.level - wl.window / 2))) := by
    simp only [WindowLevel.applyToArray, WindowLevel.getDisplayRange]
    rw [if_pos hne, List.map_map]
    rfl
  constructor
  · intro y hy
    rw [hrange] at hy
    obtain ⟨v, -, rfl⟩ := List.mem_map.mp hy
    have hclip_lo : wl.level - wl.window / 2 ≤
        npClip (wl.level - wl.window / 2) (wl.level + wl.window / 2) v := by
      simp only [npClip]
      exact le_min (le_max_right _ _) (le_of_lt hlt)
    have hclip_hi : npClip (wl.level - wl.window / 2) (wl.level + wl.window / 2) v ≤
        wl.level + wl.window / 2 := min_le_right _ _
    have hpos : 0 < (wl.level + wl.window / 2) - (wl.level - wl.window / 2) := by
      linarith
    constructor
    · apply div_nonneg _ (le_of_lt hpos)
      linarith
    · rw [div_le_one hpos]
      linarith
  · intro i hi
    rw [hrange, List.get?_map, hi]  -- deprecated alias still present in this Mathlib
    have hclip : npClip (wl.level - wl.window / 2) (wl.level + wl.window / 2)
        wl.level = wl.level := by
      simp only [npClip]
      rw [max_eq_left (by linarith), min_eq_left (by linarith)]
    rw [Option.map_some', hclip]
    congr 1
    field_simp
    ring

/-- C2, witness: the CT soft-tissue window `(400, 40)` applied to an
array containing the level value `40` maps it to `0.5`. -/
theorem C2_witness :
    ((WindowLevel.mk 400 40).applyToArray [40]).get? 0 = some (1/2) :=
  (C2_applyToArray_range_midpoint ⟨400, 40⟩ [40] (by norm_num)).2 0 rfl

/-! ## C9 — set_window_level validation -/

/-- C9: `set_window_level(window, level)` raises a validation error if
and only if `window ≤ 0`; on failure `current_window_level` is left
unchanged (the raise precedes any assignment); for `window > 0` it
replaces `current_window_level` with a fresh
`WindowLevel(window, level)`. -/
theorem C9_setWindowLevel_spec (img : MedicalImage) (window level : ℚ) :
    ((∃ e, img.setWindowLevel window level = .error e) ↔ window ≤ 0) ∧
    (window ≤ 0 → img.setWindowLevelPost window level = img) ∧
    (0 < window → img.setWindowLevel window level =
      .ok { img with currentWindowLevel := ⟨window, level⟩ }) := by
  refine ⟨⟨?_, ?_⟩, ?_, ?_⟩
  · rintro ⟨e, he⟩
    by_contra h
    simp [MedicalImage.setWindowLevel, h] at he
  · intro h
    exact ⟨"window width must be positive", by simp [MedicalImage.setWindowLevel, h]⟩
  · intro h
    simp [MedicalImage.setWindowLevelPost, MedicalImage.setWindowLevel, h]
  · intro h
    simp [MedicalImage.setWindowLevel, not_le.mpr h]

/-- C9, witness: on a concrete image, `window = 0` is rejected leaving
the state unchanged, and `window = 400` succeeds with the new value. -/
theorem C9_witness :
    (∃ e, (MedicalImage.mk 1 1 1 [7] ⟨100, 50⟩).setWindowLevel 0 10 =
      .error e) ∧
    (MedicalImage.mk 1 1 1 [7] ⟨100, 50⟩).setWindowLevelPost 0 10 =
      MedicalImage.mk 1 1 1 [7] ⟨100, 50⟩ ∧
    (MedicalImage.mk 1 1 1 [7] ⟨100, 50⟩).setWindowLevel 400 40 =
      .ok (MedicalImage.mk 1 1 1 [7] ⟨400, 40⟩) :=
  ⟨(C9_setWindowLevel_spec _ 0 10).1.mpr le_rfl,
   (C9_setWindowLevel_spec _ 0 10).2.1 le_rfl,
   (C9_setWindowLevel_spec _ 400 40).2.2 (by norm_num)⟩

/-! ## C10 — brush edit with an empty stroke list -/

/-- C10: for every unlocked well-formed segmentation and *every*
`edit_mode` string, `apply_brush_edit` with an empty coordinate list
never reaches the per-stroke mode dispatch, so it cannot raise the
unknown-edit-mode error; it succeeds and the resulting segmentation's
mask equals the original mask. -/
theorem C10_applyBrushEdit_empty (seg : MedicalSegmentation)
    (brushRadius : ℤ) (editMode editorId : String)
    (hunlocked : seg.isLocked = false) (hwf : seg.mask.WF) :
    ∃ out, applyBrushEdit seg [] brushRadius editMode editorId = .ok out ∧
      out.mask = seg.mask := by
  obtain ⟨hrank, hlen, hne⟩ := hwf
  have hlen0 : seg.mask.data.length ≠ 0 := by
    simpa [List.length_eq_zero] using hne
  have hrank' : 2 ≤ seg.mask.shape.length ∧ seg.mask.shape.length ≤ 3 := by
    rcases hrank with h | h <;> omega
  have h1 : applyBrushEdit seg [] brushRadius editMode editorId =
      mkMedicalSegmentation ⟨seg.mask.shape, seg.mask.data⟩
        seg.anatomicalRegion .MANUAL editorId none seg.parentImageUid
        (some ("Manual edit of " ++ seg.description)) := by
    simp [applyBrushEdit, hunlocked, applyStrokes]
  rw [h1]
  simp only [mkMedicalSegmentation]
  rw [if_neg hlen0, if_neg (by simpa using hrank')]
  exact ⟨_, rfl, rfl⟩

/-- C10, witness: an unlocked 2×2 segmentation edited with the
unrecognised mode `"sprinkle"` and no strokes succeeds, mask intact. -/
theorem C10_witness :
    ∃ out,
      applyBrushEdit
        ⟨⟨[2, 2], [true, false, false, true]⟩, .PROSTATE_WHOLE, .MANUAL,
          "dr", none, none, "seg", false⟩
        [] 3 "sprinkle" "dr2" = .ok out ∧
      out.mask = ⟨[2, 2], [true, false, false, true]⟩ :=
  C10_applyBrushEdit_empty _ 3 "sprinkle" "dr2" rfl
    ⟨Or.inl rfl, rfl, by decide⟩

/-! ## C6 — axial slice round-trip -/

/-- Concatenating the `k`-element chunks of a list of length `n*k`, in
order, recovers the list. -/
theorem flatten_chunks {α : Type} :
    ∀ (n : ℕ) (k : ℕ) (l : List α), l.length = n * k →
      ((List.range n).map (fun i => (l.drop (i * k)).take k)).flatten = l := by
  intro n
  induction n with
  | zero =>
    intro k l hl
    simp at hl
    simp [hl]
  | succ n ih =>
    intro k l hl
    rw [List.range_succ_eq_map]
    simp only [List.map_cons, List.map_map, List.flatten_cons, Nat.zero_mul,
      List.drop_zero]
    have hdrop : ∀ i : ℕ, l.drop ((i + 1) * k) = (l.drop k).drop (i * k) := by
      intro i
      rw [List.drop_drop]
      congr 1
      ring
    have hmap : (List.range n).map ((fun i => (l.drop (i * k)).take k) ∘ Nat.succ)
        = (List.range n).map (fun i => ((l.drop k).drop (i * k)).take k) := by
      apply List.map_congr_left
      intro i _
      simp only [Function.comp_apply]
      rw [← hdrop i]
    rw [hmap, ih k (l.drop k) (by simp [hl, Nat.succ_mul])]
    exact List.take_append_drop k l

/-- C6: for every well-formed 3-D `MedicalImage` of depth `d`,
`get_slice(AXIAL, i)` succeeds for each `i < d` with the `i`-th
contiguous slice, and stacking those slices in order reconstructs the
original 3-D array element for element. -/
theorem C6_axial_roundtrip (img : MedicalImage) (hwf : img.WF) :
    (∀ i, i < img.depth → img.getSlice .AXIAL i =
      .ok ⟨img.height, img.width, img.axialSliceData i⟩) ∧
    img.stackAxialSlices = img.data := by
  constructor
  · intro i hi
    simp [MedicalImage.getSlice, hi]
  · unfold MedicalImage.stackAxialSlices MedicalImage.axialSliceData
    exact flatten_chunks img.depth (img.height * img.width) img.data
      (by rw [hwf]; ring)

/-- C6, witness: a concrete 2×1×2 volume; both axial slices are
extracted successfully and re-stacking them gives back the data. -/
theorem C6_witness :
    (∀ i, i < 2 → (MedicalImage.mk 2 1 2 [1, 2, 3, 4] ⟨400, 40⟩).getSlice
      .AXIAL i = .ok ⟨1, 2,
        (MedicalImage.mk 2 1 2 [1, 2, 3, 4] ⟨400, 40⟩).axialSliceData i⟩) ∧
    (MedicalImage.mk 2 1 2 [1, 2, 3, 4] ⟨400, 40⟩).stackAxialSlices =
      [1, 2, 3, 4] :=
  C6_axial_roundtrip (MedicalImage.mk 2 1 2 [1, 2, 3, 4] ⟨400, 40⟩) rfl

/-! ## C7 — union / intersection voxel-count inequalities -/

/-- The constructor succeeds (no confidence score) once the mask is
nonempty and of rank 2 or 3. -/
theorem mkMedicalSegmentation_ok (mask : MaskArr) (region : AnatomicalRegion)
    (segType : SegmentationType) (creatorId : String)
    (parentImageUid : Option String) (description : Option String)
    (h1 : mask.data.length ≠ 0)
    (h2 : 2 ≤ mask.shape.length ∧ mask.shape.length ≤ 3) :
    mkMedicalSegmentation mask region segType creatorId none parentImageUid
        description =
      .ok { mask := mask, anatomicalRegion := region,
            segmentationType := segType, creatorId := creatorId,
            confidenceScore := none, parentImageUid := parentImageUid,
            description := description.getD (region.value ++ " segmentation"),
            isLocked := false } := by
  unfold mkMedicalSegmentation
  rw [if_neg h1, if_neg (by simpa using h2)]
  rfl

/-- Counting `true` in an elementwise AND is bounded by the left list. -/
theorem count_zipWith_and_le_left :
    ∀ (a b : List Bool),
      (a.zipWith (· && ·) b).count true ≤ a.count true := by
  intro a
  induction a with
  | nil => intro b; simp
  | cons x xs ih =>
    intro b
    cases b with
    | nil => simp
    | cons y ys =>
      simp only [List.zipWith_cons_cons, List.count_cons]
      exact Nat.add_le_add (ih ys) (by cases x <;> cases y <;> simp)

/-- Counting `true` in an elementwise AND is bounded by the right list. -/
theorem count_zipWith_and_le_right :
    ∀ (a b : List Bool),
      (a.zipWith (· && ·) b).count true ≤ b.count true := by
  intro a
  induction a with
  | nil => intro b; simp
  | cons x xs ih =>
    intro b
    cases b with
    | nil => simp
    | cons y ys =>
      simp only [List.zipWith_cons_cons, List.count_cons]
      exact Nat.add_le_add (ih ys) (by cases x <;> cases y <;> simp)

/-- For equal-length lists, the left `true` count is bounded by the
count of the elementwise OR. -/
theorem count_le_zipWith_or_left :
    ∀ (a b : List Bool), a.length = b.length →
      a.count true ≤ (a.zipWith (· || ·) b).count true := by
  intro a
  induction a with
  | nil => intro b _; simp
  | cons x xs ih =>
    intro b hb
    cases b with
    | nil => simp at hb
    | cons y ys =>
      simp only [List.zipWith_cons_cons, List.count_cons]
      exact Nat.add_le_add (ih ys (by simpa using hb))
        (by cases x <;> cases y <;> simp)

/-- For equal-length lists, the right `true` count is bounded by the
count of the elementwise OR. -/
theorem count_le_zipWith_or_right :
    ∀ (a b : List Bool), a.length = b.length →
      b.count true ≤ (a.zipWith (· || ·) b).count true := by
  intro a
  induction a with
  | nil =>
    intro b hb
    rw [List.length_nil] at hb
    simp [(List.length_eq_zero.mp hb.symm)]
  | cons x xs ih =>
    intro b hb
    cases b with
    | nil => simp
    | cons y ys =>
      simp only [List.zipWith_cons_cons, List.count_cons]
      exact Nat.add_le_add (ih ys (by simpa using hb))
        (by cases x <;> cases y <;> simp)

/-- C7: for every pair of well-formed segmentations with identical mask
shapes, `union_with` and `intersection_with` succeed, and
`intersection.voxel_count ≤ min(a.voxel_count, b.voxel_count) ≤
union.voxel_count`. -/
theorem C7_union_intersection_counts (a b : MedicalSegmentation)
    (hshape : a.mask.shape = b.mask.shape)
    (hwa : a.mask.WF) (hwb : b.mask.WF) :
    ∃ u i, a.unionWith b = .ok u ∧ a.intersectionWith b = .ok i ∧
      i.voxelCount ≤ min a.voxelCount b.voxelCount ∧
      min a.voxelCount b.voxelCount ≤ u.voxelCount := by
  obtain ⟨hra, hla, hna⟩ := hwa
  obtain ⟨-, hlb, -⟩ := hwb
  have hlen : a.mask.data.length = b.mask.data.length := by
    rw [hla, hlb, hshape]
  have hzlen : ∀ f : Bool → Bool → Bool,
      (a.mask.data.zipWith f b.mask.data).length = a.mask.data.length := by
    intro f
    rw [List.length_zipWith, hlen, min_self]
  have hne0 : a.mask.data.length ≠ 0 := by
    simpa [List.length_eq_zero] using hna
  have hrank : 2 ≤ a.mask.shape.length ∧ a.mask.shape.length ≤ 3 := by
    rcases hra with h | h <;> omega
  have hif : ¬ a.mask.shape ≠ b.mask.shape := not_not_intro hshape
  have hu : a.unionWith b = .ok
      { mask := ⟨a.mask.shape, a.mask.data.zipWith (· || ·) b.mask.data⟩,
        anatomicalRegion := a.anatomicalRegion, segmentationType := .MANUAL,
        creatorId := "system_union", confidenceScore := none,
        parentImageUid := a.parentImageUid,
        description := "Union of " ++ a.description ++ " and " ++ b.description,
        isLocked := false } := by
    unfold MedicalSegmentation.unionWith
    rw [if_neg hif]
    exact mkMedicalSegmentation_ok _ _ _ _ _ _ (by rw [hzlen]; exact hne0) hrank
  have hi : a.intersectionWith b = .ok
      { mask := ⟨a.mask.shape, a.mask.data.zipWith (· && ·) b.mask.data⟩,
        anatomicalRegion := a.anatomicalRegion, segmentationType := .MANUAL,
        creatorId := "system_intersection", confidenceScore := none,
        parentImageUid := a.parentImageUid,
        description := "Intersection of " ++ a.description ++ " and " ++
          b.description,
        isLocked := false } := by
    unfold MedicalSegmentation.intersectionWith
    rw [if_neg hif]
    exact mkMedicalSegmentation_ok _ _ _ _ _ _ (by rw [hzlen]; exact hne0) hrank
  refine ⟨_, _, hu, hi, ?_, ?_⟩
  · exact le_min
      (count_zipWith_and_le_left a.mask.data b.mask.data)
      (count_zipWith_and_le_right a.mask.data b.mask.data)
  · exact le_trans (min_le_left _ _)
      (count_le_zipWith_or_left a.mask.data b.mask.data hlen)

/-- C7, witness: two concrete overlapping 2×2 masks. -/
theorem C7_witness :
    ∃ u i,
      MedicalSegmentation.unionWith
        ⟨⟨[2, 2], [true, true, false, false]⟩, .PROSTATE_WHOLE, .MANUAL,
          "dr", none, none, "a", false⟩
        ⟨⟨[2, 2], [true, false, true, false]⟩, .PROSTATE_WHOLE, .MANUAL,
          "dr", none, none, "b", false⟩ = .ok u ∧
      MedicalSegmentation.intersectionWith
        ⟨⟨[2, 2], [true, true, false, false]⟩, .PROSTATE_WHOLE, .MANUAL,
          "dr", none, none, "a", false⟩
        ⟨⟨[2, 2], [true, false, true, false]⟩, .PROSTATE_WHOLE, .MANUAL,
          "dr", none, none, "b", false⟩ = .ok i ∧
      i.voxelCount ≤ min 2 2 ∧ min 2 2 ≤ u.voxelCount := by
  have h := C7_union_intersection_counts
    ⟨⟨[2, 2], [true, true, false, false]⟩, .PROSTATE_WHOLE, .MANUAL,
      "dr", none, none, "a", false⟩
    ⟨⟨[2, 2], [true, false, true, false]⟩, .PROSTATE_WHOLE, .MANUAL,
      "dr", none, none, "b", false⟩
    rfl ⟨Or.inl rfl, rfl, by decide⟩ ⟨Or.inl rfl, rfl, by decide⟩
  simpa [MedicalSegmentation.voxelCount] using h

/-! ## C5 — merge_segmentations -/

/-- `pyMaxBy` returns its accumulator or a list element. -/
theorem pyMaxBy_mem {α : Type} (f : α → ℕ) :
    ∀ (l : List α) (acc : α), pyMaxBy f acc l = acc ∨ pyMaxBy f acc l ∈ l := by
  intro l
  induction l with
  | nil => intro acc; exact Or.inl rfl
  | cons x xs ih =>
    intro acc
    simp only [pyMaxBy]
    by_cases h : f x > f acc
    · rw [if_pos h]
      rcases ih x with h' | h'
      · exact Or.inr (by rw [h']; exact List.mem_cons_self _ _)
      · exact Or.inr (List.mem_cons_of_mem _ h')
    · rw [if_neg h]
      rcases ih acc with h' | h'
      · exact Or.inl h'
      · exact Or.inr (List.mem_cons_of_mem _ h')

/-- `pyMaxBy` dominates the accumulator and every list element. -/
theorem pyMaxBy_ge {α : Type} (f : α → ℕ) :
    ∀ (l : List α) (acc : α),
      f acc ≤ f (pyMaxBy f acc l) ∧ ∀ x ∈ l, f x ≤ f (pyMaxBy f acc l) := by
  intro l
  induction l with
  | nil => intro acc; exact ⟨le_rfl, by simp⟩
  | cons x xs ih =>
    intro acc
    simp only [pyMaxBy]
    by_cases h : f x > f acc
    · rw [if_pos h]
      refine ⟨le_trans (le_of_lt h) (ih x).1, ?_⟩
      intro y hy
      rcases List.mem_cons.mp hy with rfl | hy'
      · exact (ih y).1
      · exact (ih x).2 y hy'
    · rw [if_neg h]
      refine ⟨(ih acc).1, ?_⟩
      intro y hy
      rcases List.mem_cons.mp hy with rfl | hy'
      · exact le_trans (not_lt.mp h) (ih acc).1
      · exact (ih acc).2 y hy'

/-- C5: with strategy `largest` over well-formed equal-dimension inputs,
the merged mask is bit-identical to the mask of an input with maximal
`voxel_count`; and whenever two inputs have different dimensions, the
merge fails with the dimension-mismatch error no matter which strategy
string is passed. -/
theorem C5_merge_spec :
    (∀ (base : MedicalSegmentation) (rest : List MedicalSegmentation)
        (editorId : String),
      base.mask.WF → (∀ s ∈ rest, s.mask.WF) →
      (∀ s ∈ rest, s.mask.shape = base.mask.shape) →
      ∃ out s, mergeSegmentations (base :: rest) "largest" editorId = .ok out ∧
        s ∈ base :: rest ∧ out.mask.data = s.mask.data ∧
        ∀ t ∈ base :: rest, t.voxelCount ≤ s.voxelCount) ∧
    (∀ (segs : List MedicalSegmentation) (strategy editorId : String)
        (a b : MedicalSegmentation),
      a ∈ segs → b ∈ segs → a.mask.shape ≠ b.mask.shape →
      mergeSegmentations segs strategy editorId =
        .error "all segmentations must have the same dimensions") := by
  constructor
  · intro base rest editorId hwfb hwfr hsh
    have hany : ¬ (rest.any (fun seg =>
        decide (seg.mask.shape ≠ base.mask.shape)) = true) := by
      simp only [List.any_eq_true, not_exists, not_and]
      intro s hs
      simp [hsh s hs]
    have hmem : pyMaxBy MedicalSegmentation.voxelCount base rest ∈
        base :: rest := by
      rcases pyMaxBy_mem MedicalSegmentation.voxelCount rest base with h | h
      · rw [h]; exact List.mem_cons_self _ _
      · exact List.mem_cons_of_mem _ h
    have hchwf : (pyMaxBy MedicalSegmentation.voxelCount base rest).mask.WF := by
      rcases List.mem_cons.mp hmem with h | h
      · rw [h]; exact hwfb
      · exact hwfr _ h
    have hlen0 :
        (pyMaxBy MedicalSegmentation.voxelCount base rest).mask.data.length ≠
          0 := by
      simpa [List.length_eq_zero] using hchwf.2.2
    have hrank : 2 ≤ base.mask.shape.length ∧ base.mask.shape.length ≤ 3 := by
      rcases hwfb.1 with h | h <;> omega
    have hok : mergeSegmentations (base :: rest) "largest" editorId = .ok
        { mask := ⟨base.mask.shape,
            (pyMaxBy MedicalSegmentation.voxelCount base rest).mask.data⟩,
          anatomicalRegion := base.anatomicalRegion,
          segmentationType := .MANUAL, creatorId := editorId,
          confidenceScore := none, parentImageUid := base.parentImageUid,
          description := "Merged segmentation (" ++ "largest" ++ ")",
          isLocked := false } := by
      simp only [mergeSegmentations]
      rw [if_neg hany,
        if_neg (by simp : ¬ ("largest" : String) = "union"),
        if_neg (by simp : ¬ ("largest" : String) = "intersection"),
        if_pos trivial]
      exact mkMedicalSegmentation_ok
        ⟨base.mask.shape,
          (pyMaxBy MedicalSegmentation.voxelCount base rest).mask.data⟩
        _ _ _ _ _ hlen0 hrank
    refine ⟨_, pyMaxBy MedicalSegmentation.voxelCount base rest, hok, hmem,
      rfl, ?_⟩
    intro t ht
    rcases List.mem_cons.mp ht with h | h
    · rw [h]; exact (pyMaxBy_ge MedicalSegmentation.voxelCount rest base).1
    · exact (pyMaxBy_ge MedicalSegmentation.voxelCount rest base).2 t h
  · intro segs strategy editorId a b ha hb hab
    cases segs with
    | nil => cases ha
    | cons base rest =>
      have hbad : ∃ s ∈ rest, s.mask.shape ≠ base.mask.shape := by
        by_cases hA : a.mask.shape = base.mask.shape
        · have hBne : b.mask.shape ≠ base.mask.shape := by
            intro h; exact hab (hA.trans h.symm)
          have hbrest : b ∈ rest := by
            rcases List.mem_cons.mp hb with rfl | h
            · exact absurd rfl hBne
            · exact h
          exact ⟨b, hbrest, hBne⟩
        · have harest : a ∈ rest := by
            rcases List.mem_cons.mp ha with rfl | h
            · exact absurd rfl hA
            · exact h
          exact ⟨a, harest, hA⟩
      have hany : rest.any (fun seg =>
          decide (seg.mask.shape ≠ base.mask.shape)) = true := by
        rcases hbad with ⟨s, hs, hne⟩
        simp only [List.any_eq_true]
        exact ⟨s, hs, by simpa using hne⟩
      simp only [mergeSegmentations]
      rw [if_pos hany]

/-- C5, witness: merging two concrete 2×2 segmentations with `largest`
gives back the larger mask. -/
theorem C5_witness :
    ∃ out s,
      mergeSegmentations
        [⟨⟨[2, 2], [true, false, false, false]⟩, .PROSTATE_WHOLE, .MANUAL,
           "dr", none, none, "small", false⟩,
         ⟨⟨[2, 2], [true, true, true, false]⟩, .SUSPICIOUS_LESION, .MANUAL,
           "dr", none, none, "big", false⟩] "largest" "dr2" = .ok out ∧
      s ∈ [⟨⟨[2, 2], [true, false, false, false]⟩, .PROSTATE_WHOLE, .MANUAL,
             "dr", none, none, "small", false⟩,
           (⟨⟨[2, 2], [true, true, true, false]⟩, .SUSPICIOUS_LESION, .MANUAL,
             "dr", none, none, "big", false⟩ : MedicalSegmentation)] ∧
      out.mask.data = s.mask.data ∧
      ∀ t ∈ [⟨⟨[2, 2], [true, false, false, false]⟩, .PROSTATE_WHOLE, .MANUAL,
               "dr", none, none, "small", false⟩,
             (⟨⟨[2, 2], [true, true, true, false]⟩, .SUSPICIOUS_LESION,
               .MANUAL, "dr", none, none, "big", false⟩ :
               MedicalSegmentation)],
        t.voxelCount ≤ s.voxelCount :=
  C5_merge_spec.1
    ⟨⟨[2, 2], [true, false, false, false]⟩, .PROSTATE_WHOLE, .MANUAL,
      "dr", none, none, "small", false⟩
    [⟨⟨[2, 2], [true, true, true, false]⟩, .SUSPICIOUS_LESION, .MANUAL,
      "dr", none, none, "big", false⟩] "dr2"
    ⟨Or.inl rfl, rfl, by decide⟩
    (by intro s hs
        rcases List.mem_cons.mp hs with rfl | h
        · exact ⟨Or.inl rfl, rfl, by decide⟩
        · cases h)
    (by intro s hs
        rcases List.mem_cons.mp hs with rfl | h
        · rfl
        · cases h)

/-! ## C8 — empty-mask segmentation -/

/-- C8: a nonempty mask array with no `True` voxel has `voxel_count`
0, an all-zero bounding box and centroid, the all-zero metrics record
(volume, surface, diameter, sphericity, compactness all 0), and
all-zero intensity statistics against any same-shaped image. -/
theorem C8_empty_mask_zeros (s : MedicalSegmentation) (sp : ImageSpacing)
    (image : NumArr)
    (hfalse : ∀ b ∈ s.mask.data, b = false)
    (_hne : s.mask.data ≠ [])
    (hshape : image.shape = s.mask.shape) :
    s.voxelCount = 0 ∧
    s.getBoundingBox = s.mask.shape.map (fun _ => (0, 0)) ∧
    s.getCentroid = s.mask.shape.map (fun _ => (0 : ℚ)) ∧
    s.calculateMetrics sp =
      { volumeMm3 := 0, surfaceAreaMm2 := 0, maxDiameterMm := 0,
        sphericity := 0, compactness := 0, voxelCount := 0 } ∧
    s.calculateIntensityStatistics image =
      .ok { meanIntensity := 0, stdIntensity := 0, minIntensity := 0,
            maxIntensity := 0, medianIntensity := 0, percentile25 := 0,
            percentile75 := 0, entropy := 0, uniformity := 0 } := by
  have hvc : s.voxelCount = 0 := by
    refine List.count_eq_zero.mpr ?_
    intro hmem
    exact absurd (hfalse true hmem) (by simp)
  have hemp : s.isEmpty = true := by
    simp [MedicalSegmentation.isEmpty, hvc]
  refine ⟨hvc, ?_, ?_, ?_, ?_⟩
  · unfold MedicalSegmentation.getBoundingBox
    rw [if_pos hemp]
  · unfold MedicalSegmentation.getCentroid
    rw [if_pos hemp]
  · unfold MedicalSegmentation.calculateMetrics
    rw [if_pos hemp]
  · unfold MedicalSegmentation.calculateIntensityStatistics
    rw [if_neg (not_not_intro hshape), if_pos hemp]

/-- C8, witness: a concrete all-false 2×2 mask against a concrete 2×2
image. -/
theorem C8_witness :
    MedicalSegmentation.voxelCount
      ⟨⟨[2, 2], [false, false, false, false]⟩, .URETHRA, .MANUAL, "dr",
        none, none, "empty", false⟩ = 0 ∧
    MedicalSegmentation.getBoundingBox
      ⟨⟨[2, 2], [false, false, false, false]⟩, .URETHRA, .MANUAL, "dr",
        none, none, "empty", false⟩ = [2, 2].map (fun _ => (0, 0)) ∧
    MedicalSegmentation.getCentroid
      ⟨⟨[2, 2], [false, false, false, false]⟩, .URETHRA, .MANUAL, "dr",
        none, none, "empty", false⟩ = [2, 2].map (fun _ => (0 : ℚ)) ∧
    MedicalSegmentation.calculateMetrics
      ⟨⟨[2, 2], [false, false, false, false]⟩, .URETHRA, .MANUAL, "dr",
        none, none, "empty", false⟩ ⟨1, 1, 3⟩ =
      { volumeMm3 := 0, surfaceAreaMm2 := 0, maxDiameterMm := 0,
        sphericity := 0, compactness := 0, voxelCount := 0 } ∧
    MedicalSegmentation.calculateIntensityStatistics
      ⟨⟨[2, 2], [false, false, false, false]⟩, .URETHRA, .MANUAL, "dr",
        none, none, "empty", false⟩ ⟨[2, 2], [5, 6, 7, 8]⟩ =
      .ok { meanIntensity := 0, stdIntensity := 0, minIntensity := 0,
            maxIntensity := 0, medianIntensity := 0, percentile25 := 0,
            percentile75 := 0, entropy := 0, uniformity := 0 } :=
  C8_empty_mask_zeros
    ⟨⟨[2, 2], [false, false, false, false]⟩, .URETHRA, .MANUAL, "dr",
      none, none, "empty", false⟩ ⟨1, 1, 3⟩ ⟨[2, 2], [5, 6, 7, 8]⟩
    (by decide) (by decide) rfl

/-! ## C4 — diameter coordinate sampling -/

/-- The true-coordinate list is as long as the number of `True` entries,
whatever starting index the enumeration uses. -/
theorem enumFrom_filterMap_length {β : Type} (g : ℕ → β) :
    ∀ (l : List Bool) (n : ℕ),
      ((l.enumFrom n).filterMap
        (fun p => if p.2 then some (g p.1) else none)).length =
        l.count true := by
  intro l
  induction l with
  | nil => intro n; rfl
  | cons x xs ih =>
    intro n
    rw [List.enumFrom_cons]
    cases x
    · simpa [List.count_cons] using ih (n + 1)
    · simpa [List.count_cons] using ih (n + 1)

/-- `np.where` yields one coordinate tuple per `True` voxel. -/
theorem trueCoords_length (m : MaskArr) :
    m.trueCoords.length = m.data.count true :=
  enumFrom_filterMap_length (unravelIndex m.shape) m.data 0

/-- `xs[::1]` is `xs`. -/
theorem sampleEvery_one {α : Type} : ∀ l : List α, sampleEvery 1 l = l := by
  intro l
  induction l with
  | nil => rw [sampleEvery]
  | cons x xs ih => rw [sampleEvery]; simpa using ih

/-- Length of `xs[::step]` for `step ≥ 1`: `⌈|xs| / step⌉`, computed as
`(|xs| + step - 1) / step`. -/
theorem sampleEvery_length_aux {α : Type} (step : ℕ) (hstep : 1 ≤ step) :
    ∀ (n : ℕ) (l : List α), l.length ≤ n →
      (sampleEvery step l).length = (l.length + step - 1) / step := by
  intro n
  induction n with
  | zero =>
    intro l hl
    have hnil : l = [] := List.eq_nil_of_length_eq_zero (Nat.le_zero.mp hl)
    subst hnil
    simp [sampleEvery, Nat.div_eq_of_lt (by omega : step - 1 < step)]
  | succ n ih =>
    intro l hl
    cases l with
    | nil => simp [sampleEvery, Nat.div_eq_of_lt (by omega : step - 1 < step)]
    | cons x xs =>
      rw [sampleEvery]
      have hrec := ih (xs.drop (step - 1))
        (by simp only [List.length_drop]; simp at hl; omega)
      simp only [List.length_cons, hrec, List.length_drop]
      rcases le_or_lt (step - 1) xs.length with h | h
      · have h1 : xs.length - (step - 1) + step - 1 = xs.length := by omega
        have h2 : xs.length + 1 + step - 1 = xs.length + step := by omega
        rw [h1, h2, Nat.add_div_right _ (by omega)]
      · have h1 : xs.length - (step - 1) = 0 := by omega
        have h2 : xs.length + 1 + step - 1 = xs.length + step := by omega
        rw [h1, h2, Nat.zero_add, Nat.div_eq_of_lt (by omega : step - 1 < step),
          Nat.div_eq_of_lt_le (by omega : 1 * step ≤ xs.length + step)
            (by omega : xs.length + step < (1 + 1) * step)]

/-- Length of `xs[::step]` for `step ≥ 1`. -/
theorem sampleEvery_length {α : Type} (step : ℕ) (hstep : 1 ≤ step)
    (l : List α) :
    (sampleEvery step l).length = (l.length + step - 1) / step :=
  sampleEvery_length_aux step hstep l.length l le_rfl

/-- The thinned point set has `⌈n / (n // 1000)⌉ ≤ 1999` points. -/
theorem sampled_bound (n : ℕ) (h : 1000 < n) :
    (n + n / 1000 - 1) / (n / 1000) ≤ 1999 := by
  have hs1 : 1 ≤ n / 1000 := by omega
  have hub : n ≤ 1000 * (n / 1000) + 999 := by omega
  have hle : n + n / 1000 - 1 ≤ (n / 1000) * 1001 + 998 := by omega
  calc (n + n / 1000 - 1) / (n / 1000)
      ≤ ((n / 1000) * 1001 + 998) / (n / 1000) :=
        Nat.div_le_div_right hle
    _ = 1001 + 998 / (n / 1000) := Nat.mul_add_div (by omega) 1001 998
    _ ≤ 1001 + 998 := by
        have := Nat.div_le_self 998 (n / 1000)
        omega
    _ ≤ 1999 := by norm_num

/-- C4, counterexample: a mask with 1001 true voxels.  The thinning step
is `1001 // 1000 = 1`, so `coords[::1]` keeps all 1001 coordinates —
more than the 1000 the claim allows. -/
theorem C4_counterexample :
    1000 < (MaskArr.trueCoords ⟨[1001, 1], List.replicate 1001 true⟩).length ∧
    ¬ ((MaskArr.coordsForDiameter
        ⟨[1001, 1], List.replicate 1001 true⟩).length ≤ 1000) := by
  have ht : (MaskArr.trueCoords ⟨[1001, 1], List.replicate 1001 true⟩).length =
      1001 := by
    rw [trueCoords_length, List.count_replicate_self]
  have hc : (MaskArr.coordsForDiameter
      ⟨[1001, 1], List.replicate 1001 true⟩).length = 1001 := by
    unfold MaskArr.coordsForDiameter
    rw [if_pos (by rw [ht]; omega)]
    rw [ht, sampleEvery_one, ht]
  constructor
  · rw [ht]; omega
  · rw [hc]; omega

/-- C4 (amended): when the number of true-voxel coordinates `n` exceeds
1000, the diameter computation samples every `N`-th coordinate with
`N = n // 1000`, leaving `⌈n / N⌉` points — which can exceed 1000 (up to
1999, e.g. step 1 for `1000 < n < 2000`) but is always at most 1999,
i.e. strictly under twice the intended budget. -/
theorem C4_sampled_length (m : MaskArr)
    (h : 1000 < m.trueCoords.length) :
    m.coordsForDiameter.length =
      (m.trueCoords.length + m.trueCoords.length / 1000 - 1) /
        (m.trueCoords.length / 1000) ∧
    m.coordsForDiameter.length ≤ 1999 := by
  have hstep : 1 ≤ m.trueCoords.length / 1000 := by omega
  have hlen : m.coordsForDiameter.length =
      (m.trueCoords.length + m.trueCoords.length / 1000 - 1) /
        (m.trueCoords.length / 1000) := by
    unfold MaskArr.coordsForDiameter
    rw [if_pos h]
    exact sampleEvery_length _ hstep _
  exact ⟨hlen, hlen ▸ sampled_bound _ h⟩

/-- C4, witness: the amended bound applied to the 1001-voxel mask. -/
theorem C4_witness :
    (MaskArr.coordsForDiameter ⟨[1001, 1], List.replicate 1001 true⟩).length =
      ((MaskArr.trueCoords ⟨[1001, 1], List.replicate 1001 true⟩).length +
        (MaskArr.trueCoords
          ⟨[1001, 1], List.replicate 1001 true⟩).length / 1000 - 1) /
      ((MaskArr.trueCoords
        ⟨[1001, 1], List.replicate 1001 true⟩).length / 1000) ∧
    (MaskArr.coordsForDiameter
      ⟨[1001, 1], List.replicate 1001 true⟩).length ≤ 1999 :=
  C4_sampled_length ⟨[1001, 1], List.replicate 1001 true⟩
    (by rw [trueCoords_length, List.count_replicate_self]; omega)

/-! ## C3 — accessor copies versus slice views -/

/-- C3, counterexample: a concrete 2×2×2 image.  `get_slice(AXIAL, 0)`
returns a view of the internal buffer (`medical_image.py` line 197 takes
no copy), so writing `99` through the slice changes what a subsequent
internal read returns — the claim that mutation through the returned
slice leaves subsequent reads unchanged is false. -/
theorem C3_counterexample :
    Alias.getSliceAxial ⟨0, 2, 2, 2⟩ 0 = .ok ⟨0, 0, 4⟩ ∧
    Alias.Heap.readView
        (Alias.Heap.writeView ⟨[[1, 2, 3, 4, 5, 6, 7, 8]]⟩ ⟨0, 0, 4⟩ 0 99)
        (Alias.ImageRef.internalView ⟨0, 2, 2, 2⟩) ≠
      Alias.Heap.readView ⟨[[1, 2, 3, 4, 5, 6, 7, 8]]⟩
        (Alias.ImageRef.internalView ⟨0, 2, 2, 2⟩) := by
  constructor
  · rfl
  · decide

/-- C3 (amended): reads through the `image_data` property do return a
deep copy — the returned view targets a freshly allocated buffer and
writing through it leaves the internal array untouched — but
`get_slice` returns a numpy *view* of the internal 3-D array: the
returned slice shares the internal buffer, and writing through it
rewrites the internal array at the corresponding flat position (so
subsequent reads of `image_data` and `get_slice` observe the change). -/
theorem C3_accessor_aliasing (h : Alias.Heap) (img : Alias.ImageRef)
    (hbuf : img.bufId < h.bufs.length) (i p : ℕ) (hi : i < img.depth) :
    ((Alias.imageDataRead h img).2.bufId ≠ img.bufId ∧
      ∀ q y, ((Alias.imageDataRead h img).1.writeView
          (Alias.imageDataRead h img).2 q y).readView img.internalView =
        h.readView img.internalView) ∧
    (Alias.getSliceAxial img i =
      .ok ⟨img.bufId, i * (img.height * img.width),
        img.height * img.width⟩ ∧
      ∀ y, (h.writeView ⟨img.bufId, i * (img.height * img.width),
          img.height * img.width⟩ p y).readView img.internalView =
        (h.readView img.internalView).set
          (i * (img.height * img.width) + p) y) := by
  refine ⟨⟨?_, ?_⟩, ?_, ?_⟩
  · simp only [Alias.imageDataRead, Alias.Heap.alloc]
    omega
  · intro q y
    simp only [Alias.imageDataRead, Alias.Heap.alloc, Alias.Heap.writeView,
      Alias.Heap.readView, Alias.ImageRef.internalView]
    rw [List.getD_eq_getElem?_getD, List.getD_eq_getElem?_getD,
      List.getElem?_set_ne (by omega), List.getElem?_append_left hbuf]
  · simp [Alias.getSliceAxial, hi]
  · intro y
    have hbufs : ∀ nb : List ℚ,
        ((h.bufs.set img.bufId nb).getD img.bufId []) = nb := by
      intro nb
      rw [List.getD_eq_getElem?_getD]
      simp [List.getElem?_set_self', hbuf]
    simp only [Alias.Heap.writeView, Alias.Heap.readView,
      Alias.ImageRef.internalView, List.drop_zero]
    rw [hbufs, List.set_take]

/-- C3, witness: the amended aliasing statement at the concrete 2×2×2
image of the counterexample. -/
theorem C3_witness :
    ((Alias.imageDataRead ⟨[[1, 2, 3, 4, 5, 6, 7, 8]]⟩ ⟨0, 2, 2, 2⟩).2.bufId ≠
        (0 : ℕ) ∧
      ∀ q y, ((Alias.imageDataRead ⟨[[1, 2, 3, 4, 5, 6, 7, 8]]⟩
          ⟨0, 2, 2, 2⟩).1.writeView
          (Alias.imageDataRead ⟨[[1, 2, 3, 4, 5, 6, 7, 8]]⟩
            ⟨0, 2, 2, 2⟩).2 q y).readView
          (Alias.ImageRef.internalView ⟨0, 2, 2, 2⟩) =
        Alias.Heap.readView ⟨[[1, 2, 3, 4, 5, 6, 7, 8]]⟩
          (Alias.ImageRef.internalView ⟨0, 2, 2, 2⟩)) ∧
    (Alias.getSliceAxial ⟨0, 2, 2, 2⟩ 1 = .ok ⟨0, 1 * (2 * 2), 2 * 2⟩ ∧
      ∀ y, (Alias.Heap.writeView ⟨[[1, 2, 3, 4, 5, 6, 7, 8]]⟩
          ⟨0, 1 * (2 * 2), 2 * 2⟩ 2 y).readView
          (Alias.ImageRef.internalView ⟨0, 2, 2, 2⟩) =
        (Alias.Heap.readView ⟨[[1, 2, 3, 4, 5, 6, 7, 8]]⟩
          (Alias.ImageRef.internalView ⟨0, 2, 2, 2⟩)).set
          (1 * (2 * 2) + 2) y) :=
  C3_accessor_aliasing ⟨[[1, 2, 3, 4, 5, 6, 7, 8]]⟩ ⟨0, 2, 2, 2⟩
    (by decide) 1 2 (by decide)

end DeepProstate
